import Mathlib

/-
Verification development for the caffeflow TensorFlow transformer
(src/caffeflow/tensorflow/transformer.py).

The Python source is shallowly embedded below.  Numeric parameter fields
that Python stores as non-negative protobuf integers are modelled as Nat;
floating-point coefficients (LRN alpha/beta) are modelled as rationals,
so that the division in map_lrn is exact.  Python dicts used for keyword
arguments are modelled as insertion-ordered association lists, with dict
assignment given by dictInsert (replace in place if the key exists,
append otherwise), matching CPython dict semantics.
-/

namespace Caffeflow

/-- Value is the type of argument values appearing in a mapped TensorFlow
node: integers, rational numbers (standing for Python floats), strings and
booleans. -/
inductive Value where
  | int : ℤ → Value
  | num : ℚ → Value
  | str : String → Value
  | bool : Bool → Value
deriving DecidableEq

/-- TensorFlowNode models the class of the same name: a target operation
name, ordered positional arguments, and ordered keyword arguments
(list of key-value pairs, insertion order preserved as in the Python
source, which stores list(kwargs.items())). -/
structure TensorFlowNode where
  op : String
  args : List Value
  kwargs : List (String × Value)
deriving DecidableEq

/-- MapError models the exceptions the mapper can raise: KaffeError with a
message, a failed assert statement, and an out-of-range tuple index. -/
inductive MapError where
  | kaffeError : String → MapError
  | assertionError : MapError
  | indexError : MapError
deriving DecidableEq

instance {ε α : Type} [DecidableEq ε] [DecidableEq α] : DecidableEq (Except ε α) := fun a b =>
  match a, b with
  | .ok x, .ok y =>
    if h : x = y then .isTrue (by rw [h]) else .isFalse (fun hc => h (Except.ok.inj hc))
  | .error e, .error f =>
    if h : e = f then .isTrue (by rw [h]) else .isFalse (fun hc => h (Except.error.inj hc))
  | .ok x, .error f => .isFalse (fun hc => Except.noConfusion hc)
  | .error e, .ok y => .isFalse (fun hc => Except.noConfusion hc)

/-- dictInsert models a Python dict assignment d[key] = v on an
insertion-ordered association list: if the key is present its value is
replaced in place, otherwise the pair is appended. -/
def dictInsert (d : List (String × Value)) (key : String) (v : Value) :
    List (String × Value) :=
  if d.any (fun kv => kv.1 = key) then
    d.map (fun kv => if kv.1 = key then (key, v) else kv)
  else
    d ++ [(key, v)]

/-- dictUpdate models Python dict.update: each pair of the update list is
assigned in order. -/
def dictUpdate (d upd : List (String × Value)) : List (String × Value) :=
  upd.foldl (fun acc kv => dictInsert acc kv.1 kv.2) d

/-- kwLookup finds the value bound to a key in a keyword-argument list
(the first binding, although in all emitted lists keys are unique). -/
def kwLookup (d : List (String × Value)) (key : String) : Option Value :=
  match d with
  | [] => none
  | kv :: rest => if kv.1 = key then some kv.2 else kwLookup rest key

/-- hasKey tests whether a keyword-argument list binds a key. -/
def hasKey (d : List (String × Value)) (key : String) : Bool :=
  d.any (fun kv => kv.1 = key)

/-- Value.format models TensorFlowNode.format: strings are wrapped in
single quotes, any other value is rendered by str().  Python renders True
and False capitalized; rationals stand in for floats. -/
def Value.format : Value → String
  | .int n => toString n
  | .num q => toString q
  | .str s => "\x27" ++ s ++ "\x27"
  | .bool b => if b then "True" else "False"

/-- pair models TensorFlowNode.pair: key=formatted(value). -/
def pair (key : String) (v : Value) : String :=
  key ++ "=" ++ v.format

/-- TensorFlowNode.emit models the emit method.  The attached source
node's identifier (self.node.name in Python) is passed explicitly.  As in
the source, keyword pairs are appended only when the kwarg list is
non-empty, and the name keyword is always appended last. -/
def TensorFlowNode.emit (n : TensorFlowNode) (nodeName : String) : String :=
  let args := n.args.map Value.format
  let args := if n.kwargs ≠ [] then args ++ n.kwargs.map (fun kv => pair kv.1 kv.2) else args
  let args := args ++ [pair "name" (Value.str nodeName)]
  n.op ++ "(" ++ String.intercalate ", " args ++ ")"

/-- MaybeActivated.injectKwargs models the constructor of MaybeActivated:
if the node's relu metadata (false when absent) differs from the default,
a relu binding with the negated default is prepared, otherwise nothing. -/
def MaybeActivated.injectKwargs (reluMeta : Bool) (default : Bool) :
    List (String × Value) :=
  if reluMeta ≠ default then [("relu", Value.bool (!default))] else []

/-- MaybeActivated.call models calling a MaybeActivated instance: the
prepared inject kwargs are dict-updated into the call kwargs and a
TensorFlowNode is built. -/
def MaybeActivated.call (reluMeta : Bool) (default : Bool) (op : String)
    (args : List Value) (kwargs : List (String × Value)) : TensorFlowNode :=
  { op := op, args := args,
    kwargs := dictUpdate kwargs (MaybeActivated.injectKwargs reluMeta default) }

/-- KernelParameters models node.layer.kernel_parameters: the kernel,
stride and pad fields consumed by get_kernel_params. -/
structure KernelParameters where
  kernel_h : ℕ
  kernel_w : ℕ
  stride_h : ℕ
  stride_w : ℕ
  pad_h : ℕ
  pad_w : ℕ
deriving DecidableEq

/-- get_kernel_params models TensorFlowMapper.get_kernel_params: in
same-padding mode the padding dict is the single operator_padding flag;
otherwise pad_h and pad_w are each added exactly when truthy
(non-zero). -/
def get_kernel_params (kp : KernelParameters) (use_padding_same : Bool) :
    List (String × Value) :=
  if use_padding_same then
    dictInsert [] "operator_padding" (Value.str "SAME")
  else
    let padding : List (String × Value) := []
    let padding := if kp.pad_h ≠ 0 then dictInsert padding "pad_h" (Value.int kp.pad_h) else padding
    let padding := if kp.pad_w ≠ 0 then dictInsert padding "pad_w" (Value.int kp.pad_w) else padding
    padding

/-- ConvolutionNode gathers the fields of a convolution node read by
map_convolution: kernel parameters, output channel count
(node.output_shape[1]), group count, bias flag, and the relu metadata
flag (node.metadata.get with default False). -/
structure ConvolutionNode where
  kernel : KernelParameters
  c_o : ℕ
  group : ℕ
  bias_term : Bool
  relu_meta : Bool
deriving DecidableEq

/-- map_convolution models TensorFlowMapper.map_convolution, with the
mapper configuration flag self.use_padding_same passed explicitly. -/
def map_convolution (use_padding_same : Bool) (node : ConvolutionNode) :
    TensorFlowNode :=
  let kwargs := get_kernel_params node.kernel use_padding_same
  let kwargs := if node.group ≠ 1 then dictInsert kwargs "group" (Value.int node.group) else kwargs
  let kwargs := if !node.bias_term then dictInsert kwargs "biased" (Value.bool false) else kwargs
  MaybeActivated.call node.relu_meta true "conv"
    [Value.int node.kernel.kernel_h, Value.int node.kernel.kernel_w, Value.int node.c_o,
     Value.int node.kernel.stride_h, Value.int node.kernel.stride_w] kwargs

/-- PoolingNode gathers the fields read by map_pooling: the pool-type
code (node.parameters.pool) and the kernel parameters. -/
structure PoolingNode where
  pool : ℕ
  kernel : KernelParameters
deriving DecidableEq

/-- map_pooling models TensorFlowMapper.map_pooling.  The call to
get_kernel_params at its call site passes no second argument, so the
default False is used there regardless of the mapper configuration; the
configuration flag is still a parameter here to state that fact.  Codes
other than 0 and 1 raise KaffeError. -/
def map_pooling (use_padding_same : Bool) (node : PoolingNode) :
    Except MapError TensorFlowNode :=
  match (if node.pool = 0 then some "max_pool"
         else if node.pool = 1 then some "avg_pool" else none) with
  | none => .error (.kaffeError "Unsupported pooling type.")
  | some pool_op =>
    let padding := get_kernel_params node.kernel false
    .ok { op := pool_op,
          args := [Value.int node.kernel.kernel_h, Value.int node.kernel.kernel_w,
                   Value.int node.kernel.stride_h, Value.int node.kernel.stride_w],
          kwargs := padding }

/-- InnerProductNode gathers the fields read by map_inner_product. -/
structure InnerProductNode where
  axis : ℤ
  bias_term : Bool
  num_output : ℕ
  relu_meta : Bool
deriving DecidableEq

/-- map_inner_product models TensorFlowMapper.map_inner_product: the two
assert statements fail unless axis == 1 and bias_term holds; on success a
fc node with the output count as sole positional argument is built through
MaybeActivated with the default (True). -/
def map_inner_product (node : InnerProductNode) : Except MapError TensorFlowNode :=
  if node.axis ≠ 1 then .error .assertionError
  else if !node.bias_term then .error .assertionError
  else .ok (MaybeActivated.call node.relu_meta true "fc" [Value.int node.num_output] [])

/-- LRNNode gathers the fields read by map_lrn; alpha and beta are
rationals standing for the Python floats. -/
structure LRNNode where
  local_size : ℕ
  alpha : ℚ
  beta : ℚ
deriving DecidableEq

/-- map_lrn models TensorFlowMapper.map_lrn: the assert rejects even
window sizes; int(local_size / 2) under true division and truncation
equals Nat division for a non-negative size; alpha is divided by the
window size. -/
def map_lrn (node : LRNNode) : Except MapError TensorFlowNode :=
  if node.local_size % 2 = 1 then
    .ok { op := "lrn",
          args := [Value.int (node.local_size / 2),
                   Value.num (node.alpha / node.local_size),
                   Value.num node.beta],
          kwargs := [] }
  else .error .assertionError

/-- concat_axis_table is the literal tuple (2, 3, 1, 0) in map_concat. -/
def concat_axis_table : List ℤ := [2, 3, 1, 0]

/-- ConcatNode gathers the field read by map_concat. -/
structure ConcatNode where
  axis : ℕ
deriving DecidableEq

/-- map_concat models TensorFlowMapper.map_concat: the emitted axis is
the literal table indexed by the source axis (an out-of-range index would
raise IndexError in Python). -/
def map_concat (node : ConcatNode) : Except MapError TensorFlowNode :=
  match concat_axis_table.get? node.axis with
  | some a => .ok { op := "concat", args := [Value.int a], kwargs := [] }
  | none => .error .indexError

/-- BatchNormNode gathers the fields read by map_batch_norm: the length
of node.data and the relu metadata flag. -/
structure BatchNormNode where
  data_count : ℕ
  relu_meta : Bool
deriving DecidableEq

/-- map_batch_norm models TensorFlowMapper.map_batch_norm: scale_offset
holds when the node carries 4 data tensors; otherwise a
scale_offset=False keyword is passed; the node is built through
MaybeActivated with default False. -/
def map_batch_norm (node : BatchNormNode) : TensorFlowNode :=
  let scale_offset := node.data_count = 4
  let kwargs : List (String × Value) :=
    if scale_offset then [] else [("scale_offset", Value.bool false)]
  MaybeActivated.call node.relu_meta false "batch_normalization" [] kwargs

/-- EltwiseNode gathers the field read by map_eltwise. -/
structure EltwiseNode where
  operation : ℕ
deriving DecidableEq

/-- map_eltwise models TensorFlowMapper.map_eltwise: the op-code is
looked up in the literal mapping 0/1/2 to multiply/add/max; a KeyError is
turned into a KaffeError carrying the offending code. -/
def map_eltwise (node : EltwiseNode) : Except MapError TensorFlowNode :=
  match (if node.operation = 0 then some "multiply"
         else if node.operation = 1 then some "add"
         else if node.operation = 2 then some "max" else none) with
  | some opName => .ok { op := opName, args := [], kwargs := [] }
  | none => .error (.kaffeError ("Unknown elementwise operation: " ++ toString node.operation))

/-- TransformerState models the memoizing fields of TensorFlowTransformer:
the held graph and the two memo slots (self.params, self.source), each
None until first computed.  The graph and parameter types are abstract
because the graph module is outside this file's scope. -/
structure TransformerState (Graph Params : Type) where
  graph : Graph
  params : Option Params
  source : Option String

/-- transform_data models TensorFlowTransformer.transform_data: when the
params memo is empty, the data-transform passes are applied to the stored
graph, the graph field is replaced by the transformed graph, the
parameters are extracted and memoized; otherwise the memo is returned
unchanged.  The pass pipeline and the extraction are abstract
parameters. -/
def transform_data {Graph Params : Type} (dataTransforms : Graph → Graph)
    (extractParams : Graph → Params) (s : TransformerState Graph Params) :
    Params × TransformerState Graph Params :=
  match s.params with
  | some p => (p, s)
  | none =>
    let g := dataTransforms s.graph
    let p := extractParams g
    (p, { s with graph := g, params := some p })

/-- transform_source models TensorFlowTransformer.transform_source: when
the source memo is empty, the mapper and emitter are run on the stored
graph and the text memoized; otherwise the memo is returned unchanged. -/
def transform_source {Graph Params : Type} (generateSource : Graph → String)
    (s : TransformerState Graph Params) : String × TransformerState Graph Params :=
  match s.source with
  | some src => (src, s)
  | none =>
    let src := generateSource s.graph
    (src, { s with source := some src })

/-! Helper lemmas about keyword-argument lists. -/

theorem kwLookup_nil (k : String) : kwLookup [] k = none := rfl

theorem kwLookup_cons (kv : String × Value) (d : List (String × Value)) (k : String) :
    kwLookup (kv :: d) k = if kv.1 = k then some kv.2 else kwLookup d k := rfl

theorem kwLookup_append (d₁ d₂ : List (String × Value)) (k : String) :
    kwLookup (d₁ ++ d₂) k =
      match kwLookup d₁ k with
      | some v => some v
      | none => kwLookup d₂ k := by
  induction d₁ with
  | nil => simp [kwLookup]
  | cons kv rest ih =>
    by_cases h : kv.1 = k <;> simp [kwLookup, h, ih]

theorem hasKey_eq_false_iff (d : List (String × Value)) (k : String) :
    hasKey d k = false ↔ kwLookup d k = none := by
  induction d with
  | nil => simp [hasKey, kwLookup]
  | cons kv rest ih =>
    by_cases h : kv.1 = k <;> simp [hasKey, kwLookup, h] <;> simpa [hasKey] using ih

theorem dictInsert_of_fresh (d : List (String × Value)) (k : String) (v : Value)
    (h : hasKey d k = false) : dictInsert d k v = d ++ [(k, v)] := by
  have h2 : (d.any fun kv => kv.1 = k) = false := h
  simp [dictInsert, h2]

/-- conv_kwargs_eq normalizes the keyword-argument list produced by
map_convolution into an explicit concatenation of optional singleton
bindings, in emission order: padding, group, biased, relu.  All keys are
distinct, so every dict assignment appends. -/
theorem conv_kwargs_eq (same : Bool) (node : ConvolutionNode) :
    (map_convolution same node).kwargs =
      (if same then [("operator_padding", Value.str "SAME")]
       else (if node.kernel.pad_h ≠ 0 then [("pad_h", Value.int node.kernel.pad_h)] else []) ++
            (if node.kernel.pad_w ≠ 0 then [("pad_w", Value.int node.kernel.pad_w)] else [])) ++
      (if node.group ≠ 1 then [("group", Value.int node.group)] else []) ++
      (if node.bias_term then [] else [("biased", Value.bool false)]) ++
      (if node.relu_meta then [] else [("relu", Value.bool false)]) := by
  obtain ⟨kp, c_o, g, bias, relu⟩ := node
  simp only [map_convolution, MaybeActivated.call, MaybeActivated.injectKwargs,
    dictUpdate, get_kernel_params]
  cases same <;> cases bias <;> cases relu <;>
    rcases eq_or_ne kp.pad_h 0 with h1 | h1 <;>
    rcases eq_or_ne kp.pad_w 0 with h2 | h2 <;>
    rcases eq_or_ne g 1 with h3 | h3 <;>
    simp [h1, h2, h3, dictInsert, List.foldl]

/-- C1 counterexample: the claim that source axis 0 yields emitted axis 0
is false: the literal table (2, 3, 1, 0) at index 0 holds 2, so a
concatenation node with source axis 0 emits axis 2, not axis 0. -/
theorem concat_axis_zero_counterexample :
    map_concat ⟨0⟩ =
      .ok { op := "concat", args := [Value.int 2], kwargs := [] } ∧
    map_concat ⟨0⟩ ≠
      .ok { op := "concat", args := [Value.int 0], kwargs := [] } := by
  exact ⟨by decide, by decide⟩

/-- C1 (amended): for every concatenation node, the mapped operation
carries a single axis argument obtained from the literal lookup table
(2, 3, 1, 0) indexed by the node's source axis; in particular source
axis 1 yields emitted axis 3 and source axis 0 yields emitted axis 2. -/
theorem concat_axis_from_table (node : ConcatNode) (h : node.axis < 4) :
    map_concat node =
      .ok { op := "concat", args := [Value.int (concat_axis_table.getD node.axis 0)],
            kwargs := [] } ∧
    (node.axis = 1 → concat_axis_table.getD node.axis 0 = 3) ∧
    (node.axis = 0 → concat_axis_table.getD node.axis 0 = 2) := by
  obtain ⟨a⟩ := node
  have h4 : a < 4 := h
  interval_cases a <;> exact ⟨by decide, by decide, by decide⟩

theorem concat_axis_from_table_witness :
    1 < 4 ∧ map_concat ⟨1⟩ =
      .ok { op := "concat", args := [Value.int 3], kwargs := [] } := by
  refine ⟨by decide, ?_⟩
  have h := (concat_axis_from_table ⟨1⟩ (by decide)).1
  rw [h]
  decide

/-- C3: mapping a local-response-normalization node fails when the window
size is even, and otherwise emits radius (size - 1) / 2 and alpha divided
by the window size. -/
theorem lrn_radius_alpha (node : LRNNode) :
    (node.local_size % 2 = 1 →
      map_lrn node =
        .ok { op := "lrn",
              args := [Value.int ((node.local_size - 1) / 2),
                       Value.num (node.alpha / node.local_size),
                       Value.num node.beta],
              kwargs := [] }) ∧
    (node.local_size % 2 = 0 → map_lrn node = .error .assertionError) := by
  constructor
  · intro h
    simp [map_lrn, h]
    omega
  · intro h
    have h1 : ¬ node.local_size % 2 = 1 := by omega
    simp [map_lrn, h1]

theorem lrn_radius_alpha_witness :
    5 % 2 = 1 ∧ map_lrn ⟨5, 1, 3/4⟩ =
      .ok { op := "lrn", args := [Value.int 2, Value.num (1/5), Value.num (3/4)],
            kwargs := [] } := by
  refine ⟨by decide, ?_⟩
  have h := (lrn_radius_alpha ⟨5, 1, 3/4⟩).1 (by decide)
  rw [h]
  norm_num

/-- C7: pool-type code 0 maps to max_pool and code 1 to avg_pool, with
kernel and stride sizes as positional arguments; any other code raises
the unsupported-pooling KaffeError. -/
theorem pooling_op_codes (b : Bool) (node : PoolingNode) :
    (node.pool = 0 → map_pooling b node =
      .ok { op := "max_pool",
            args := [Value.int node.kernel.kernel_h, Value.int node.kernel.kernel_w,
                     Value.int node.kernel.stride_h, Value.int node.kernel.stride_w],
            kwargs := get_kernel_params node.kernel false }) ∧
    (node.pool = 1 → map_pooling b node =
      .ok { op := "avg_pool",
            args := [Value.int node.kernel.kernel_h, Value.int node.kernel.kernel_w,
                     Value.int node.kernel.stride_h, Value.int node.kernel.stride_w],
            kwargs := get_kernel_params node.kernel false }) ∧
    (node.pool ≠ 0 → node.pool ≠ 1 →
      map_pooling b node = .error (.kaffeError "Unsupported pooling type.")) := by
  refine ⟨?_, ?_, ?_⟩
  · intro h
    simp [map_pooling, h]
  · intro h
    simp [map_pooling, h]
  · intro h0 h1
    simp [map_pooling, h0, h1]

theorem pooling_op_codes_witness :
    map_pooling true ⟨0, ⟨2, 2, 2, 2, 0, 0⟩⟩ =
      .ok { op := "max_pool", args := [Value.int 2, Value.int 2, Value.int 2, Value.int 2],
            kwargs := [] } ∧
    map_pooling true ⟨1, ⟨2, 2, 2, 2, 0, 0⟩⟩ =
      .ok { op := "avg_pool", args := [Value.int 2, Value.int 2, Value.int 2, Value.int 2],
            kwargs := [] } ∧
    map_pooling true ⟨2, ⟨2, 2, 2, 2, 0, 0⟩⟩ =
      .error (.kaffeError "Unsupported pooling type.") := by
  refine ⟨?_, ?_, ?_⟩
  · have h := (pooling_op_codes true ⟨0, ⟨2, 2, 2, 2, 0, 0⟩⟩).1 rfl
    rw [h]
    decide
  · have h := (pooling_op_codes true ⟨1, ⟨2, 2, 2, 2, 0, 0⟩⟩).2.1 rfl
    rw [h]
    decide
  · exact (pooling_op_codes true ⟨2, ⟨2, 2, 2, 2, 0, 0⟩⟩).2.2 (by decide) (by decide)

/-- C8: elementwise op-codes 0, 1 and 2 map to the no-argument operations
multiply, add and max; any other code raises a KaffeError carrying the
offending code. -/
theorem eltwise_op_codes (node : EltwiseNode) :
    (node.operation = 0 →
      map_eltwise node = .ok { op := "multiply", args := [], kwargs := [] }) ∧
    (node.operation = 1 →
      map_eltwise node = .ok { op := "add", args := [], kwargs := [] }) ∧
    (node.operation = 2 →
      map_eltwise node = .ok { op := "max", args := [], kwargs := [] }) ∧
    (node.operation ≠ 0 → node.operation ≠ 1 → node.operation ≠ 2 →
      map_eltwise node = .error (.kaffeError
        ("Unknown elementwise operation: " ++ toString node.operation))) := by
  refine ⟨?_, ?_, ?_, ?_⟩
  · intro h
    simp [map_eltwise, h]
  · intro h
    simp [map_eltwise, h]
  · intro h
    simp [map_eltwise, h]
  · intro h0 h1 h2
    simp [map_eltwise, h0, h1, h2]

theorem eltwise_op_codes_witness :
    map_eltwise ⟨1⟩ = .ok { op := "add", args := [], kwargs := [] } ∧
    map_eltwise ⟨5⟩ = .error (.kaffeError "Unknown elementwise operation: 5") := by
  constructor
  · exact (eltwise_op_codes ⟨1⟩).2.1 rfl
  · have h := (eltwise_op_codes ⟨5⟩).2.2.2 (by decide) (by decide) (by decide)
    rw [h]
    rfl

/-- get_kernel_params_false_spec: in explicit-padding mode, pad_h and
pad_w are bound exactly when non-zero and the same-padding flag is never
bound. -/
theorem get_kernel_params_false_spec (kp : KernelParameters) :
    kwLookup (get_kernel_params kp false) "pad_h" =
      (if kp.pad_h ≠ 0 then some (Value.int kp.pad_h) else none) ∧
    kwLookup (get_kernel_params kp false) "pad_w" =
      (if kp.pad_w ≠ 0 then some (Value.int kp.pad_w) else none) ∧
    hasKey (get_kernel_params kp false) "operator_padding" = false := by
  rcases eq_or_ne kp.pad_h 0 with h1 | h1 <;>
    rcases eq_or_ne kp.pad_w 0 with h2 | h2 <;>
    simp [get_kernel_params, dictInsert, kwLookup, hasKey, h1, h2]

/-- C6: mapping a fully-connected node succeeds only when the axis
selector is 1 and the bias term is present, emitting the output-unit
count as the sole positional argument; otherwise the assertion fails. -/
theorem inner_product_requires_axis_bias (node : InnerProductNode) :
    (node.axis = 1 → node.bias_term = true →
      ∃ t, map_inner_product node = .ok t ∧ t.op = "fc" ∧
        t.args = [Value.int node.num_output]) ∧
    (node.axis ≠ 1 ∨ node.bias_term = false →
      map_inner_product node = .error .assertionError) := by
  constructor
  · intro h1 h2
    refine ⟨MaybeActivated.call node.relu_meta true "fc" [Value.int node.num_output] [],
      ?_, rfl, rfl⟩
    simp [map_inner_product, h1, h2]
  · rintro (h | h)
    · simp [map_inner_product, h]
    · rcases eq_or_ne node.axis 1 with ha | ha <;> simp [map_inner_product, ha, h]

theorem inner_product_requires_axis_bias_witness :
    (∃ t, map_inner_product ⟨1, true, 10, true⟩ = .ok t ∧ t.op = "fc" ∧
      t.args = [Value.int 10]) ∧
    map_inner_product ⟨2, true, 10, true⟩ = .error .assertionError := by
  constructor
  · exact (inner_product_requires_axis_bias ⟨1, true, 10, true⟩).1 rfl rfl
  · exact (inner_product_requires_axis_bias ⟨2, true, 10, true⟩).2 (Or.inl (by decide))

/-- C2: for each eligible kind the mapped node carries a relu keyword
exactly when the node's relu metadata (false when absent) differs from
the kind's default-active expectation (true for convolution and
fully-connected, false for batch normalization); when present its value
is the negation of the default, and when the states agree the keyword is
omitted. -/
theorem maybe_activated_relu_injection (conv : ConvolutionNode) (same : Bool)
    (fc : InnerProductNode) (bn : BatchNormNode) :
    kwLookup (map_convolution same conv).kwargs "relu" =
      (if conv.relu_meta then none else some (Value.bool false)) ∧
    (∀ t, map_inner_product fc = .ok t →
      kwLookup t.kwargs "relu" =
        (if fc.relu_meta then none else some (Value.bool false))) ∧
    kwLookup (map_batch_norm bn).kwargs "relu" =
      (if bn.relu_meta then some (Value.bool true) else none) := by
  refine ⟨?_, ?_, ?_⟩
  · obtain ⟨kp, c, g, bias, relu⟩ := conv
    rw [conv_kwargs_eq]
    cases same <;> cases bias <;> cases relu <;>
      rcases eq_or_ne kp.pad_h 0 with h1 | h1 <;>
      rcases eq_or_ne kp.pad_w 0 with h2 | h2 <;>
      rcases eq_or_ne g 1 with h3 | h3 <;>
      simp [h1, h2, h3, kwLookup]
  · intro t ht
    rcases eq_or_ne fc.axis 1 with ha | ha
    · by_cases hb : fc.bias_term
      · simp [map_inner_product, ha, hb] at ht
        cases hr : fc.relu_meta <;>
          simp [← ht, MaybeActivated.call, MaybeActivated.injectKwargs,
            dictUpdate, dictInsert, kwLookup, hr]
      · simp [map_inner_product, ha, hb] at ht
    · simp [map_inner_product, ha] at ht
  · obtain ⟨dc, relu⟩ := bn
    rcases eq_or_ne dc 4 with h4 | h4 <;> cases relu <;>
      simp [map_batch_norm, h4, MaybeActivated.call, MaybeActivated.injectKwargs,
        dictUpdate, dictInsert, kwLookup]

theorem maybe_activated_relu_injection_witness :
    kwLookup (map_convolution false ⟨⟨3, 3, 1, 1, 0, 0⟩, 8, 1, true, false⟩).kwargs
      "relu" = some (Value.bool false) ∧
    kwLookup (TensorFlowNode.mk "fc" [Value.int 10]
      [("relu", Value.bool false)]).kwargs "relu" = some (Value.bool false) ∧
    kwLookup (map_batch_norm ⟨4, true⟩).kwargs "relu" = some (Value.bool true) := by
  have h := maybe_activated_relu_injection ⟨⟨3, 3, 1, 1, 0, 0⟩, 8, 1, true, false⟩ false
    ⟨1, true, 10, false⟩ ⟨4, true⟩
  refine ⟨?_, ?_, ?_⟩
  · simpa using h.1
  · have h2 := h.2.1 (TensorFlowNode.mk "fc" [Value.int 10] [("relu", Value.bool false)])
      (by decide)
    simpa using h2
  · simpa using h.2.2

/-- C4: when same-padding is enabled a convolution's keyword arguments
contain the operator-level same-padding flag and no explicit pad keys;
when disabled, pad_h and pad_w appear exactly when non-zero and the flag
never appears; pooling always uses the explicit pad keywords (each
exactly when non-zero) and never the flag, regardless of the mapper's
configuration. -/
theorem padding_mode_exclusive (node : ConvolutionNode) (pnode : PoolingNode) (b : Bool) :
    (hasKey (map_convolution true node).kwargs "operator_padding" = true ∧
     hasKey (map_convolution true node).kwargs "pad_h" = false ∧
     hasKey (map_convolution true node).kwargs "pad_w" = false) ∧
    (kwLookup (map_convolution false node).kwargs "pad_h" =
       (if node.kernel.pad_h ≠ 0 then some (Value.int node.kernel.pad_h) else none) ∧
     kwLookup (map_convolution false node).kwargs "pad_w" =
       (if node.kernel.pad_w ≠ 0 then some (Value.int node.kernel.pad_w) else none) ∧
     hasKey (map_convolution false node).kwargs "operator_padding" = false) ∧
    map_pooling b pnode = map_pooling false pnode ∧
    (∀ t, map_pooling b pnode = .ok t →
      kwLookup t.kwargs "pad_h" =
        (if pnode.kernel.pad_h ≠ 0 then some (Value.int pnode.kernel.pad_h) else none) ∧
      kwLookup t.kwargs "pad_w" =
        (if pnode.kernel.pad_w ≠ 0 then some (Value.int pnode.kernel.pad_w) else none) ∧
      hasKey t.kwargs "operator_padding" = false) := by
  obtain ⟨kp, c, g, bias, relu⟩ := node
  refine ⟨⟨?_, ?_, ?_⟩, ⟨?_, ?_, ?_⟩, rfl, ?_⟩
  · rw [conv_kwargs_eq]
    cases bias <;> cases relu <;> rcases eq_or_ne g 1 with h3 | h3 <;> simp [h3, hasKey]
  · rw [conv_kwargs_eq]
    cases bias <;> cases relu <;> rcases eq_or_ne g 1 with h3 | h3 <;> simp [h3, hasKey]
  · rw [conv_kwargs_eq]
    cases bias <;> cases relu <;> rcases eq_or_ne g 1 with h3 | h3 <;> simp [h3, hasKey]
  · rw [conv_kwargs_eq]
    cases bias <;> cases relu <;>
      rcases eq_or_ne kp.pad_h 0 with h1 | h1 <;>
      rcases eq_or_ne kp.pad_w 0 with h2 | h2 <;>
      rcases eq_or_ne g 1 with h3 | h3 <;>
      simp [h1, h2, h3, kwLookup]
  · rw [conv_kwargs_eq]
    cases bias <;> cases relu <;>
      rcases eq_or_ne kp.pad_h 0 with h1 | h1 <;>
      rcases eq_or_ne kp.pad_w 0 with h2 | h2 <;>
      rcases eq_or_ne g 1 with h3 | h3 <;>
      simp [h1, h2, h3, kwLookup]
  · rw [conv_kwargs_eq]
    cases bias <;> cases relu <;>
      rcases eq_or_ne kp.pad_h 0 with h1 | h1 <;>
      rcases eq_or_ne kp.pad_w 0 with h2 | h2 <;>
      rcases eq_or_ne g 1 with h3 | h3 <;>
      simp [h1, h2, h3, hasKey]
  · intro t ht
    have hkw : t.kwargs = get_kernel_params pnode.kernel false := by
      rcases eq_or_ne pnode.pool 0 with hp | hp
      · simp [map_pooling, hp] at ht
        rw [← ht]
      · rcases eq_or_ne pnode.pool 1 with hq | hq
        · simp [map_pooling, hp, hq] at ht
          rw [← ht]
        · simp [map_pooling, hp, hq] at ht
    rw [hkw]
    exact get_kernel_params_false_spec pnode.kernel

theorem padding_mode_exclusive_witness :
    hasKey (map_convolution true ⟨⟨3, 3, 1, 1, 2, 0⟩, 8, 1, true, true⟩).kwargs
      "operator_padding" = true ∧
    kwLookup (map_convolution false ⟨⟨3, 3, 1, 1, 2, 0⟩, 8, 1, true, true⟩).kwargs
      "pad_h" = some (Value.int 2) ∧
    kwLookup (TensorFlowNode.mk "max_pool"
      [Value.int 3, Value.int 3, Value.int 1, Value.int 1]
      [("pad_h", Value.int 2)]).kwargs "pad_h" = some (Value.int 2) ∧
    hasKey (TensorFlowNode.mk "max_pool"
      [Value.int 3, Value.int 3, Value.int 1, Value.int 1]
      [("pad_h", Value.int 2)]).kwargs "operator_padding" = false := by
  have h := padding_mode_exclusive ⟨⟨3, 3, 1, 1, 2, 0⟩, 8, 1, true, true⟩
    ⟨0, ⟨3, 3, 1, 1, 2, 0⟩⟩ true
  obtain ⟨hph, hpw, hop⟩ := h.2.2.2 (TensorFlowNode.mk "max_pool"
    [Value.int 3, Value.int 3, Value.int 1, Value.int 1]
    [("pad_h", Value.int 2)]) (by decide)
  refine ⟨h.1.1, ?_, ?_, hop⟩
  · simpa using h.2.1.1
  · simpa using hph

/-- C5: a convolution's keyword arguments include group with the node's
group count exactly when the group count exceeds 1, and include
biased=False exactly when the node has no bias term; with group 1 and a
bias term both are omitted. -/
theorem conv_group_biased_kwargs (node : ConvolutionNode) (same : Bool)
    (h : 1 ≤ node.group) :
    kwLookup (map_convolution same node).kwargs "group" =
      (if 1 < node.group then some (Value.int node.group) else none) ∧
    kwLookup (map_convolution same node).kwargs "biased" =
      (if node.bias_term then none else some (Value.bool false)) := by
  obtain ⟨kp, c, g, bias, relu⟩ := node
  rcases eq_or_ne g 1 with h3 | h3
  · subst h3
    constructor <;>
      (rw [conv_kwargs_eq];
       cases same <;> cases bias <;> cases relu <;>
         rcases eq_or_ne kp.pad_h 0 with h1 | h1 <;>
         rcases eq_or_ne kp.pad_w 0 with h2 | h2 <;>
         simp [h1, h2, kwLookup])
  · have h4 : 1 < g := by
      have hg : 1 ≤ g := h
      omega
    constructor <;>
      (rw [conv_kwargs_eq];
       cases same <;> cases bias <;> cases relu <;>
         rcases eq_or_ne kp.pad_h 0 with h1 | h1 <;>
         rcases eq_or_ne kp.pad_w 0 with h2 | h2 <;>
         simp [h1, h2, h3, h4, kwLookup])

theorem conv_group_biased_kwargs_witness :
    (1 : ℕ) ≤ 2 ∧
    kwLookup (map_convolution false ⟨⟨3, 3, 1, 1, 0, 0⟩, 8, 2, false, true⟩).kwargs
      "group" = some (Value.int 2) ∧
    kwLookup (map_convolution false ⟨⟨3, 3, 1, 1, 0, 0⟩, 8, 2, false, true⟩).kwargs
      "biased" = some (Value.bool false) := by
  refine ⟨by decide, ?_, ?_⟩
  · have h := conv_group_biased_kwargs ⟨⟨3, 3, 1, 1, 0, 0⟩, 8, 2, false, true⟩ false
      (by decide)
    simpa using h.1
  · have h := conv_group_biased_kwargs ⟨⟨3, 3, 1, 1, 0, 0⟩, 8, 2, false, true⟩ false
      (by decide)
    simpa using h.2

/-- C9: both lowering results are memoized: after a first call to
transform_data or transform_source, a second call returns the same value
and leaves the state unchanged; in particular the stored graph is not put
through the data-transform passes again. -/
theorem transformer_memoizes {Graph Params : Type} (f : Graph → Graph)
    (e : Graph → Params) (gen : Graph → String) (s : TransformerState Graph Params) :
    transform_data f e (transform_data f e s).2 =
      ((transform_data f e s).1, (transform_data f e s).2) ∧
    transform_source gen (transform_source gen s).2 =
      ((transform_source gen s).1, (transform_source gen s).2) ∧
    (transform_data f e (transform_data f e s).2).2.graph =
      (transform_data f e s).2.graph := by
  obtain ⟨g0, ps, so⟩ := s
  cases ps <;> cases so <;> simp [transform_data, transform_source]

/-- str_append_assoc: concatenation of strings is associative. -/
theorem str_append_assoc (a b c : String) : a ++ b ++ c = a ++ (b ++ c) := by
  obtain ⟨da⟩ := a
  obtain ⟨db⟩ := b
  obtain ⟨dc⟩ := c
  show String.mk (da ++ db ++ dc) = String.mk (da ++ (db ++ dc))
  exact congrArg String.mk (List.append_assoc da db dc)

/-- C10: the emitted call text always has the form of the operation name
applied to the formatted positional arguments, then the keyword pairs in
insertion order, then a final name keyword quoting the owning node's
identifier. -/
theorem emit_appends_name_last (n : TensorFlowNode) (nodeName : String) :
    n.emit nodeName = n.op ++ "(" ++ String.intercalate ", "
      (n.args.map Value.format ++ n.kwargs.map (fun kv => pair kv.1 kv.2) ++
       [pair "name" (Value.str nodeName)]) ++ ")" ∧
    pair "name" (Value.str nodeName) = "name=\x27" ++ nodeName ++ "\x27" := by
  constructor
  · cases hk : n.kwargs <;> simp [TensorFlowNode.emit, hk]
  · simp only [pair, Value.format]
    rw [← str_append_assoc, ← str_append_assoc]
    rfl

end Caffeflow
